import Mathlib

/-!
Shallow embedding of the kozen-delta migration engine
(MigrationService, BaseTracker, BaseRunner, MdbTracker) together with
proofs about its commit/rollback, scan/info and tracker CRUD behaviour.

Conventions of the embedding:
* JavaScript `Date` values are modelled as `Nat` (milliseconds since epoch);
  `Date` comparison is numeric comparison.
* Optional / possibly-`undefined` fields are modelled with `Option`.
* `async` methods are modelled as pure functions; a call that may either
  return a value or throw is modelled with the `Call` type below.
* External collaborators that are not part of the repository
  (`strToDate` from the engine package, the regex engine, the filesystem)
  are taken as parameters of the definitions that use them.
-/

namespace KozenDelta

/-- Models `IResult` (src/src/models/Result.ts): `{success, message?, data?}`. -/
structure SResult (δ : Type) where
  success : Bool
  message : Option String := none
  data : Option δ := none
deriving Repr, DecidableEq

/-- Models `IChange` (src/src/models/Change.ts); the fields the engine reads.
`type` holds the `IChangeType` tag as a string; `created`/`applied` are
timestamps in milliseconds. -/
structure Change where
  id : Option String := none
  name : Option String := none
  file : Option String := none
  path : Option String := none
  extension : Option String := none
  type : Option String := none
  created : Option Nat := none
  applied : Option Nat := none
  tags : List String := []
  description : Option String := none
deriving Repr, DecidableEq

/-- Models `IFilter` (src/src/models/Filter.ts); the fields read by
`BaseTracker.info`. -/
structure Filter where
  count : Option Nat := none
  name : Option String := none
  type : Option String := none
deriving Repr, DecidableEq

/-- Models `IRequest` (src/src/models/Request.ts); the fields read by the
tracker scan.  `stat` is a JS boolean-ish flag (absent ≡ false). -/
structure Request where
  flow : Option String := none
  tag : Option String := none
  path : Option String := none
  extension : Option String := none
  runner : Option String := none
  tracker : Option String := none
  filter : Option Filter := none
  stat : Bool := false
deriving Repr, DecidableEq

/-- Models the subset of `fs.Stats` the tracker reads: `isFile()` and
`birthtime`. -/
structure FileStat where
  isFile : Bool := true
  birthtime : Option Nat := none
deriving Repr, DecidableEq

/-- Outcome of an `await`ed driver call: either a returned value or a
thrown error (its message). -/
inductive Call (δ : Type) where
  | ret (r : δ)
  | thrown (msg : String)
deriving Repr, DecidableEq

/-- Splits a character list at its last `'.'`: returns `(stem, rest-after-dot)`,
or `none` when the list has no dot. -/
def splitLastDot : List Char → Option (List Char × List Char)
  | [] => none
  | c :: cs =>
    match splitLastDot cs with
    | some (st, ex) => some (c :: st, ex)
    | none => if c = '.' then some ([], cs) else none

/-- Models Node's `path.parse(file)` restricted to a basename: returns
`(name-without-final-extension, ext-including-dot)`.  A leading dot
(hidden file) does not start an extension, matching Node. -/
def parseFile (file : String) : String × String :=
  match splitLastDot file.toList with
  | some (stem, ext) =>
    if stem.isEmpty then (file, "")
    else (String.mk stem, String.mk ('.' :: ext))
  | none => (file, "")

/-- Models `parsed.ext.replace('.', '')` on a `path.parse` extension:
such extensions are `""` or start with the (single) dot JS `replace`
removes, so stripping a leading dot is exact here. -/
def dropDot (s : String) : String :=
  match s.toList with
  | '.' :: rest => String.mk rest
  | _ => s

/-- Splits a character list at every `'.'` (the char-level semantics of
JS `target.split('.')`). -/
def splitChars : List Char → List (List Char)
  | [] => [[]]
  | c :: cs =>
    let rest := splitChars cs
    if c = '.' then [] :: rest
    else
      match rest with
      | r :: rs => (c :: r) :: rs
      | [] => [[c]]

/-- Models JS `target.split('.')`. -/
def splitDots (s : String) : List String :=
  (splitChars s.toList).map (fun l => String.mk l)

def listStartsWith : List Char → List Char → Bool
  | [], _ => true
  | _ :: _, [] => false
  | a :: as, b :: bs => a = b && listStartsWith as bs

def containsAux (pat : List Char) : List Char → Bool
  | [] => listStartsWith pat []
  | c :: cs => listStartsWith pat (c :: cs) || containsAux pat cs

/-- Literal-substring test `pat ∈ s`; used to instantiate the external
`new RegExp(pat).test(s)` at regex-free patterns in concrete examples. -/
def strContains (pat s : String) : Bool :=
  containsAux pat.toList s.toList

def natOfDigitsAux : List Char → Nat → Option Nat
  | [], acc => some acc
  | c :: cs, acc =>
    if c.isDigit then natOfDigitsAux cs (acc * 10 + (c.toNat - 48)) else none

/-- A concrete all-digits timestamp parser; used to instantiate the
external `strToDate` in concrete examples. -/
def strToNat (s : String) : Option Nat :=
  match s.toList with
  | [] => none
  | cs => natOfDigitsAux cs 0

/-- Sort key used by the scan's comparator:
`(a.created ? new Date(a.created) : new Date(0)).getTime()`. -/
def createdKey (c : Change) : Nat :=
  c.created.getD 0

/-- Insert `x` into a list after every element whose key is `≤ key x`
(the insertion step of a stable ascending insertion sort). -/
def insertLE (x : Change) : List Change → List Change
  | [] => [x]
  | y :: ys => if createdKey y ≤ createdKey x then y :: insertLE x ys else x :: y :: ys

/-- Stable ascending sort by `createdKey`; models
`changes.sort((a, b) => dateA.getTime() - dateB.getTime())`
(JS `Array.prototype.sort` is stable). -/
def sortByCreated (l : List Change) : List Change :=
  l.foldl (fun acc x => insertLE x acc) []

theorem mem_insertLE (b x : Change) (l : List Change) :
    b ∈ insertLE x l ↔ b = x ∨ b ∈ l := by
  induction l with
  | nil => simp [insertLE]
  | cons y ys ih =>
    by_cases hle : createdKey y ≤ createdKey x
    · simp only [insertLE, if_pos hle, List.mem_cons, ih]
      tauto
    · simp only [insertLE, if_neg hle, List.mem_cons]

theorem insertLE_pairwise (x : Change) (l : List Change)
    (h : l.Pairwise (fun a b => createdKey a ≤ createdKey b)) :
    (insertLE x l).Pairwise (fun a b => createdKey a ≤ createdKey b) := by
  induction l with
  | nil => simp [insertLE]
  | cons y ys ih =>
    rcases List.pairwise_cons.mp h with ⟨hy, hys⟩
    by_cases hle : createdKey y ≤ createdKey x
    · simp only [insertLE, if_pos hle]
      refine List.pairwise_cons.mpr ⟨?_, ih hys⟩
      intro b hb
      rcases (mem_insertLE b x ys).mp hb with hb | hb
      · subst hb; exact hle
      · exact hy b hb
    · simp only [insertLE, if_neg hle]
      refine List.pairwise_cons.mpr ⟨?_, h⟩
      intro b hb
      rcases List.mem_cons.mp hb with hb | hb
      · subst hb; omega
      · exact le_trans (by omega) (hy b hb)

theorem insertLE_filter_key (x : Change) (k : Nat) (l : List Change)
    (h : l.Pairwise (fun a b => createdKey a ≤ createdKey b)) :
    (insertLE x l).filter (fun c => createdKey c = k) =
      l.filter (fun c => createdKey c = k) ++
        (if createdKey x = k then [x] else []) := by
  induction l with
  | nil => by_cases hx : createdKey x = k <;> simp [insertLE, List.filter, hx]
  | cons y ys ih =>
    rcases List.pairwise_cons.mp h with ⟨hy, hys⟩
    by_cases hle : createdKey y ≤ createdKey x
    · simp only [insertLE, if_pos hle, List.filter]
      by_cases hyk : createdKey y = k
      · simp [hyk, ih hys]
      · simp [hyk, ih hys]
    · simp only [insertLE, if_neg hle, List.filter]
      by_cases hxk : createdKey x = k
      · have hlt : k < createdKey y := by omega
        have hnil : (y :: ys).filter (fun c => createdKey c = k) = [] := by
          rw [List.filter_eq_nil_iff]
          intro b hb
          rcases List.mem_cons.mp hb with hb | hb
          · subst hb; simp; omega
          · have := hy b hb; simp; omega
        simp only [List.filter] at hnil
        simp [hxk, hnil]
      · simp [hxk, List.filter]

theorem insertLE_perm (x : Change) (l : List Change) :
    (insertLE x l).Perm (x :: l) := by
  induction l with
  | nil => simp [insertLE]
  | cons y ys ih =>
    by_cases hle : createdKey y ≤ createdKey x
    · simp only [insertLE, if_pos hle]
      exact ((ih.cons y).trans (List.Perm.swap x y ys))
    · simp [insertLE, if_neg hle]

theorem sortByCreated_aux_pairwise (l : List Change) (acc : List Change)
    (h : acc.Pairwise (fun a b => createdKey a ≤ createdKey b)) :
    (l.foldl (fun acc x => insertLE x acc) acc).Pairwise
      (fun a b => createdKey a ≤ createdKey b) := by
  induction l generalizing acc with
  | nil => simpa
  | cons y ys ih => exact ih _ (insertLE_pairwise y acc h)

/-- The scan's sort produces a list ascending in `createdKey`. -/
theorem sortByCreated_pairwise (l : List Change) :
    (sortByCreated l).Pairwise (fun a b => createdKey a ≤ createdKey b) :=
  sortByCreated_aux_pairwise l [] (by simp)

theorem sortByCreated_aux_filter (l : List Change) (acc : List Change) (k : Nat)
    (h : acc.Pairwise (fun a b => createdKey a ≤ createdKey b)) :
    (l.foldl (fun acc x => insertLE x acc) acc).filter (fun c => createdKey c = k) =
      acc.filter (fun c => createdKey c = k) ++ l.filter (fun c => createdKey c = k) := by
  induction l generalizing acc with
  | nil => simp
  | cons y ys ih =>
    simp only [List.foldl_cons]
    rw [ih _ (insertLE_pairwise y acc h), insertLE_filter_key y k acc h]
    by_cases hyk : createdKey y = k <;> simp [hyk, List.filter]

/-- Stability: among entries with equal key, the sort preserves the input
order (ties are left in scan-encounter order). -/
theorem sortByCreated_filter (l : List Change) (k : Nat) :
    (sortByCreated l).filter (fun c => createdKey c = k) =
      l.filter (fun c => createdKey c = k) := by
  simpa using sortByCreated_aux_filter l [] k (by simp)

theorem sortByCreated_perm (l : List Change) :
    (sortByCreated l).Perm l := by
  have aux : ∀ (l acc : List Change),
      (l.foldl (fun acc x => insertLE x acc) acc).Perm (acc ++ l) := by
    intro l
    induction l with
    | nil => simp
    | cons y ys ih =>
      intro acc
      simp only [List.foldl_cons]
      refine (ih (insertLE y acc)).trans ?_
      have h1 : (insertLE y acc ++ ys).Perm ((y :: acc) ++ ys) :=
        (insertLE_perm y acc).append_right ys
      refine h1.trans ?_
      simp only [List.cons_append]
      exact (List.perm_middle).symm
  simpa using aux l []

/-- Result of `BaseTracker.meta`. -/
structure MetaOut where
  name : String
  created : Option Nat
deriving Repr, DecidableEq

/-- Models `BaseTracker.meta` (src/unnamed/part_001:205-212): split the
stem on `'.'`, parse the first segment as a timestamp via the external
`strToDate`, and use the second segment as the name when that succeeds. -/
def BaseTracker.meta (strToDate : String → Option Nat) (target : String) : MetaOut :=
  let parts := splitDots target
  let created := strToDate (parts.headD "")
  { name := if created.isSome then parts.getD 1 "" else parts.getD 0 "",
    created := created }

/-- Models `BaseTracker.validate` (src/unnamed/part_001:221-223):
`request?.extension && file.endsWith('.' + ext) || !request?.extension`
(an empty-string extension is falsy in JS, hence accepts everything). -/
def BaseTracker.validate (file : String) (ext : Option String) : Bool :=
  match ext with
  | some e => if e = "" then true else file.endsWith ("." ++ e)
  | none => true

/-- The stand-in stats object `{ isFile: () => true }` used when
`request.stat` is unset (src/unnamed/part_001:232): not a real `fs.stat`,
so `birthtime` is absent. -/
def defaultStatObj : FileStat :=
  { isFile := true, birthtime := none }

/-- Models `BaseTracker.stat` (src/unnamed/part_001:231-233):
`request?.stat ? await stat(filePath) : { isFile: () => true }`. -/
def BaseTracker.statFn (statOf : String → FileStat) (filePath : String)
    (req : Request) : FileStat :=
  if req.stat then statOf filePath else defaultStatObj

/-- The two bags collected by the scan loop plus an audit trail of the
paths that were actually `fs.stat`-ed. -/
structure ScanBags where
  available : List Change := []
  missing : List Change := []
  statted : List String := []
deriving Repr, DecidableEq

/-- One iteration of the scan loop body (src/unnamed/part_001:247-265).
The loop mutates `request.stat` (line 253); the evolving request object is
threaded through the accumulator. -/
def BaseTracker.scanStep (strToDate : String → Option Nat)
    (statOf : String → FileStat) (path : String) (pred : Change → Bool)
    (acc : Request × ScanBags) (file : String) : Request × ScanBags :=
  let req := acc.1
  let bags := acc.2
  if BaseTracker.validate file req.extension then
    let parsed := parseFile file
    let fileMeta := BaseTracker.meta strToDate parsed.1
    let filePath := path ++ "/" ++ file
    let req' : Request :=
      { req with stat := if fileMeta.created.isSome then req.stat else true }
    let statted' := if req'.stat then bags.statted ++ [filePath] else bags.statted
    let fileStat := BaseTracker.statFn statOf filePath req'
    let bags' :=
      if fileStat.isFile then
        let change : Change :=
          { name := some fileMeta.name,
            file := some filePath,
            path := some path,
            extension := some (dropDot parsed.2),
            created :=
              match fileMeta.created with
              | some t => some t
              | none => fileStat.birthtime }
        if pred change then
          { bags with available := bags.available ++ [change], statted := statted' }
        else
          { bags with missing := bags.missing ++ [change], statted := statted' }
      else { bags with statted := statted' }
    (req', bags')
  else acc

/-- The scan loop before the final sort (src/unnamed/part_001:245-265):
fold of `scanStep` over `readdir`'s listing. -/
def BaseTracker.scanRaw (strToDate : String → Option Nat)
    (statOf : String → FileStat) (files : List String) (path : String)
    (req : Request) (pred : Change → Bool) : Request × ScanBags :=
  files.foldl (BaseTracker.scanStep strToDate statOf path pred) (req, {})

/-- Result of `BaseTracker.scan`: the two bags, the (possibly mutated)
request object, and the audit of `fs.stat`-ed paths. -/
structure ScanOut where
  available : List Change
  missing : List Change
  req : Request
  statted : List String
deriving Repr, DecidableEq

/-- Models `BaseTracker.scan` (src/unnamed/part_001:241-276): collect the
two bags and sort `available` by `created` ascending. -/
def BaseTracker.scan (strToDate : String → Option Nat)
    (statOf : String → FileStat) (files : List String) (path : String)
    (req : Request) (pred : Change → Bool) : ScanOut :=
  let out := BaseTracker.scanRaw strToDate statOf files path req pred
  { available := sortByCreated out.2.available,
    missing := out.2.missing,
    req := out.1,
    statted := out.2.statted }

/-- Models `BaseTracker.listSplit` (src/unnamed/part_001:377-384):
`!count` yields `(list, [])`, otherwise `(slice(0, count), slice(count))`. -/
def BaseTracker.listSplit {α : Type} (list : List α) (count : Nat) :
    List α × List α :=
  if count = 0 then (list, [])
  else (list.take count, list.drop count)

/-- Models the availability predicate `info` passes to `scan`
(src/unnamed/part_001:290-305).  `regexTest pat s` models the external
`new RegExp(pat).test(s)`; an empty-string `filter.name` is falsy in JS. -/
def BaseTracker.infoPred (regexTest : String → String → Bool)
    (last : Option Change) (filter : Filter) (change : Change) : Bool :=
  let answer := true
  let answer :=
    match last with
    | some l =>
      match l.created with
      | some lastCreated =>
        match change.created with
        | some changeCreated => decide (lastCreated < changeCreated)
        | none => false
      | none => answer
    | none => answer
  match filter.name with
  | some pat =>
    if pat = "" then answer
    else
      let doesMatch := regexTest pat (change.file.getD "")
      if filter.type == some "exclude" then !doesMatch else doesMatch
  | none => answer

/-- The composed view returned by `BaseTracker.info`
(`ITrackerInfo.migrations` plus the threaded request object). -/
structure InfoOut where
  filter : Filter
  last : Option Change
  available : List Change
  applied : List Change
  ignored : List Change
  missing : List Change
  req : Request
deriving Repr, DecidableEq

/-- Models `BaseTracker.info` (src/unnamed/part_001:283-320): fetch `last`
from persistence (a parameter here), scan with `infoPred`, then split
`available` by the `filter.count` take-limit.  `cwd` models
`process.cwd()`; `files` models `readdir`. -/
def BaseTracker.info (strToDate : String → Option Nat)
    (regexTest : String → String → Bool) (statOf : String → FileStat)
    (files : List String) (cwd : String) (req : Request)
    (last : Option Change) : InfoOut :=
  let filter := req.filter.getD {}
  let path := req.path.getD cwd
  let s := BaseTracker.scan strToDate statOf files path req
    (BaseTracker.infoPred regexTest last filter)
  let split := BaseTracker.listSplit s.available (filter.count.getD 0)
  { filter := filter, last := last, available := split.1, applied := s.missing,
    ignored := split.2, missing := [], req := s.req }

/-- Models `BaseTracker.available` (src/unnamed/part_001:356-359): the
`available` bag of `info`. -/
def BaseTracker.availableOp (strToDate : String → Option Nat)
    (regexTest : String → String → Bool) (statOf : String → FileStat)
    (files : List String) (cwd : String) (req : Request)
    (last : Option Change) : List Change :=
  (BaseTracker.info strToDate regexTest statOf files cwd req last).available

/-- Models `MdbTracker.add`
(src/src/components/mdb/trackers/MdbTracker.ts:81-102) acting on the
applied-log collection in insertion order: empty input is a success with
empty data, otherwise an ordered `insertMany` of the changes exactly as
given; `insertedIds` are abstracted to insertion indices and the write is
acknowledged. -/
def MdbTracker.add (log : List Change) (changes : List Change) :
    List Change × SResult (List Nat) :=
  if changes.isEmpty then
    (log, { success := true, message := some "No changes to add", data := some [] })
  else
    (log ++ changes, { success := true, data := some (List.range changes.length) })

/-- Models `MdbTracker.delete`
(src/src/components/mdb/trackers/MdbTracker.ts:110-125):
`deleteMany({ id: { $in: changes.map(c => c.id) } })`; `data` carries
`deletedCount`.  Equality on `Option String` models Mongo's equality on
the serialized `id` field (`undefined` is serialized as `null` and
matches an absent `id`). -/
def MdbTracker.delete (log : List Change) (changes : List Change) :
    List Change × SResult Nat :=
  let ids := changes.map Change.id
  (log.filter (fun e => !(ids.contains e.id)),
   { success := true, data := some (log.countP (fun e => ids.contains e.id)) })

/-- Models `BaseRunner.commit` (src/src/services/BaseRunner.ts:26-38):
the type gate `if (change.type !== 'module')` followed by `runModule`
(the resolution + invocation of the user migration module, a parameter
here; a thrown error is an `Except.error` with its message). -/
def BaseRunner.commit (runModule : Change → Except String Change)
    (change : Change) : SResult Change :=
  if change.type ≠ some "module" then
    { success := false,
      message := some "Only 'module' type changes are supported for commit." }
  else
    match runModule change with
    | .ok d => { success := true, message := some "Migration committed", data := some d }
    | .error m => { success := false, message := some m }

/-- State accumulated by the commit/rollback loops of `MigrationService`:
the pushed `results` (each `result.data`, possibly absent), the `valid`
prefix, and an audit of the changes the runner was invoked on. -/
structure LoopOut (δ : Type) where
  results : List (Option δ)
  valid : List Change
  invoked : List Change
deriving Repr, DecidableEq

/-- Models the `for` loop of `MigrationService.commit`
(src/src/services/MigrationService.ts:37-56): invoke the runner on each
change in order; on a returned failure or a thrown error, log and `break`;
on success push `result.data`, stamp `chg.applied = new Date()` (modelled
by the single instant `now`) and push the change onto `valid`. -/
def MigrationService.commitLoop {δ : Type} (runner : Change → Call (SResult δ))
    (now : Nat) : List Change → LoopOut δ
  | [] => ⟨[], [], []⟩
  | chg :: rest =>
    match runner chg with
    | .thrown _ => ⟨[], [], [chg]⟩
    | .ret result =>
      if result.success then
        let tail := MigrationService.commitLoop runner now rest
        ⟨result.data :: tail.results,
         { chg with applied := some now } :: tail.valid,
         chg :: tail.invoked⟩
      else ⟨[], [], [chg]⟩

/-- What `MigrationService.commit` produced: the returned `IResult`, the
argument passed to `tracker.add`, and the runner-invocation audit. -/
structure CommitOut (δ : Type) where
  result : SResult (List (Option δ))
  addArg : List Change
  invoked : List Change
deriving Repr, DecidableEq

/-- Models `MigrationService.commit`
(src/src/services/MigrationService.ts:31-78): run the loop over the
tracker's `available` list (the `list` parameter), then call
`tracker.add(valid, req)`.  The `add` result is only awaited and logged:
any *returned* result — successful or not — leads to the overall
`{success: true, message: 'Commit successful', data: results}`; only a
*thrown* error reaches the surrounding `catch`. -/
def MigrationService.commit {δ ε : Type} (runner : Change → Call (SResult δ))
    (trackerAdd : List Change → Call (SResult ε)) (now : Nat)
    (list : List Change) : CommitOut δ :=
  let L := MigrationService.commitLoop runner now list
  match trackerAdd L.valid with
  | .thrown m =>
    { result := { success := false,
                  message := some ("Failed to commit change: " ++ m),
                  data := none },
      addArg := L.valid, invoked := L.invoked }
  | .ret _ =>
    { result := { success := true, message := some "Commit successful",
                  data := some L.results },
      addArg := L.valid, invoked := L.invoked }

/-- Models the `for` loop of `MigrationService.rollback`
(src/src/services/MigrationService.ts:86-103): same shape as the commit
loop but without the `applied` stamp. -/
def MigrationService.rollbackLoop {δ : Type} (runner : Change → Call (SResult δ)) :
    List Change → LoopOut δ
  | [] => ⟨[], [], []⟩
  | chg :: rest =>
    match runner chg with
    | .thrown _ => ⟨[], [], [chg]⟩
    | .ret result =>
      if result.success then
        let tail := MigrationService.rollbackLoop runner rest
        ⟨result.data :: tail.results, chg :: tail.valid, chg :: tail.invoked⟩
      else ⟨[], [], [chg]⟩

/-- What `MigrationService.rollback` produced: the returned `IResult`, the
argument passed to `tracker.delete`, and the runner-invocation audit. -/
structure RollbackOut (δ : Type) where
  result : SResult (List (Option δ))
  deleteArg : List Change
  invoked : List Change
deriving Repr, DecidableEq

/-- Models `MigrationService.rollback`
(src/src/services/MigrationService.ts:80-125): run the loop over
`tracker.list(req)` (the `list` parameter), then call
`tracker.delete(valid, req)`; only a thrown `delete` reaches the `catch`. -/
def MigrationService.rollback {δ ε : Type} (runner : Change → Call (SResult δ))
    (trackerDelete : List Change → Call (SResult ε)) (list : List Change) :
    RollbackOut δ :=
  let L := MigrationService.rollbackLoop runner list
  match trackerDelete L.valid with
  | .thrown m =>
    { result := { success := false,
                  message := some ("Failed to rollback change: " ++ m),
                  data := none },
      deleteArg := L.valid, invoked := L.invoked }
  | .ret _ =>
    { result := { success := true, message := some "Rollback successful",
                  data := some L.results },
      deleteArg := L.valid, invoked := L.invoked }

/-- Whether a runner call counts as a success for the service loops:
a returned result with `success: true` (a thrown error or a returned
failure both trigger the `break`). -/
def callOk {δ : Type} : Call (SResult δ) → Bool
  | .ret r => r.success
  | .thrown _ => false

/-- The `result.data` the loop pushes for a call (absent for a throw). -/
def callData {δ : Type} : Call (SResult δ) → Option δ
  | .ret r => r.data
  | .thrown _ => none

theorem MdbTracker.add_fst (log changes : List Change) :
    (MdbTracker.add log changes).1 = log ++ changes := by
  cases changes <;> simp [MdbTracker.add]

/-- The commit loop on a list whose first `k - 1` runner calls succeed and
whose `k`-th fails: results and `valid` come from the successful prefix
(each `valid` entry stamped with `applied = now`), and the runner was
invoked on exactly the first `k` changes. -/
theorem MigrationService.commitLoop_spec {δ : Type}
    (runner : Change → Call (SResult δ)) (now : Nat) :
    ∀ (l : List Change) (k : Nat), 1 ≤ k → k ≤ l.length →
      (∀ i, i < k - 1 → callOk (runner (l.getD i {})) = true) →
      callOk (runner (l.getD (k - 1) {})) = false →
      MigrationService.commitLoop runner now l =
        ⟨(l.take (k - 1)).map (fun c => callData (runner c)),
         (l.take (k - 1)).map (fun c => { c with applied := some now }),
         l.take k⟩ := by
  intro l
  induction l with
  | nil =>
    intro k hk1 hk2 _ _
    simp only [List.length_nil] at hk2
    omega
  | cons c cs ih =>
    intro k hk1 hk2 hok hfail
    cases k with
    | zero => omega
    | succ j =>
      cases j with
      | zero =>
        simp only [Nat.sub_self, List.getD_cons_zero] at hfail
        cases hc : runner c with
        | thrown m => simp [MigrationService.commitLoop, hc]
        | ret r =>
          rw [hc] at hfail
          simp only [callOk] at hfail
          simp [MigrationService.commitLoop, hc, hfail]
      | succ j =>
        have h0 : callOk (runner c) = true := by
          have := hok 0 (by omega)
          simpa using this
        cases hc : runner c with
        | thrown m =>
          rw [hc] at h0
          simp [callOk] at h0
        | ret r =>
          rw [hc] at h0
          simp only [callOk] at h0
          have ihcs := ih (j + 1) (by omega)
            (by simp only [List.length_cons] at hk2; omega)
            (by
              intro i hi
              have := hok (i + 1) (by omega)
              simpa using this)
            (by
              have := hfail
              simpa using this)
          simp only [MigrationService.commitLoop, hc, h0, if_true, ihcs]
          simp [callData, hc]

/-- The rollback loop under the same success/failure shape: results and
`valid` come from the successful prefix (entries unchanged), and the
runner was invoked on exactly the first `k` entries. -/
theorem MigrationService.rollbackLoop_spec {δ : Type}
    (runner : Change → Call (SResult δ)) :
    ∀ (l : List Change) (k : Nat), 1 ≤ k → k ≤ l.length →
      (∀ i, i < k - 1 → callOk (runner (l.getD i {})) = true) →
      callOk (runner (l.getD (k - 1) {})) = false →
      MigrationService.rollbackLoop runner l =
        ⟨(l.take (k - 1)).map (fun c => callData (runner c)),
         l.take (k - 1),
         l.take k⟩ := by
  intro l
  induction l with
  | nil =>
    intro k hk1 hk2 _ _
    simp only [List.length_nil] at hk2
    omega
  | cons c cs ih =>
    intro k hk1 hk2 hok hfail
    cases k with
    | zero => omega
    | succ j =>
      cases j with
      | zero =>
        simp only [Nat.sub_self, List.getD_cons_zero] at hfail
        cases hc : runner c with
        | thrown m => simp [MigrationService.rollbackLoop, hc]
        | ret r =>
          rw [hc] at hfail
          simp only [callOk] at hfail
          simp [MigrationService.rollbackLoop, hc, hfail]
      | succ j =>
        have h0 : callOk (runner c) = true := by
          have := hok 0 (by omega)
          simpa using this
        cases hc : runner c with
        | thrown m =>
          rw [hc] at h0
          simp [callOk] at h0
        | ret r =>
          rw [hc] at h0
          simp only [callOk] at h0
          have ihcs := ih (j + 1) (by omega)
            (by simp only [List.length_cons] at hk2; omega)
            (by
              intro i hi
              have := hok (i + 1) (by omega)
              simpa using this)
            (by
              have := hfail
              simpa using this)
          simp only [MigrationService.rollbackLoop, hc, h0, if_true, ihcs]
          simp [callData, hc]

/-- Every change in the commit loop's `valid` prefix carries the
`applied = now` stamp set at MigrationService.ts:44. -/
theorem MigrationService.commitLoop_valid_applied {δ : Type}
    (runner : Change → Call (SResult δ)) (now : Nat) :
    ∀ (l : List Change) (c : Change),
      c ∈ (MigrationService.commitLoop runner now l).valid →
      c.applied = some now := by
  intro l
  induction l with
  | nil =>
    intro c hc
    simp [MigrationService.commitLoop] at hc
  | cons a rest ih =>
    intro c hc
    cases ha : runner a with
    | thrown m =>
      simp [MigrationService.commitLoop, ha] at hc
    | ret r =>
      by_cases hs : r.success
      · simp only [MigrationService.commitLoop, ha, hs, if_true,
          List.mem_cons] at hc
        rcases hc with hc | hc
        · subst hc; rfl
        · exact ih c hc
      · simp [MigrationService.commitLoop, ha, hs] at hc

theorem BaseTracker.scanStep_fst (strToDate : String → Option Nat)
    (statOf : String → FileStat) (path : String) (pred : Change → Bool)
    (acc : Request × ScanBags) (file : String) :
    (BaseTracker.scanStep strToDate statOf path pred acc file).1 =
      if BaseTracker.validate file acc.1.extension then
        { acc.1 with
          stat := if (BaseTracker.meta strToDate (parseFile file).1).created.isSome
            then acc.1.stat else true }
      else acc.1 := by
  by_cases hv : BaseTracker.validate file acc.1.extension <;>
    simp [BaseTracker.scanStep, hv]

/-- One scan step only ever writes the `stat` field of the request. -/
theorem BaseTracker.scanStep_frame (strToDate : String → Option Nat)
    (statOf : String → FileStat) (path : String) (pred : Change → Bool)
    (acc : Request × ScanBags) (file : String) :
    (BaseTracker.scanStep strToDate statOf path pred acc file).1 =
      { acc.1 with stat := (BaseTracker.scanStep strToDate statOf path pred acc file).1.stat } := by
  rw [BaseTracker.scanStep_fst]
  by_cases hv : BaseTracker.validate file acc.1.extension <;> simp [hv]

theorem BaseTracker.scanStep_stat_mono (strToDate : String → Option Nat)
    (statOf : String → FileStat) (path : String) (pred : Change → Bool)
    (acc : Request × ScanBags) (file : String)
    (h : acc.1.stat = true) :
    (BaseTracker.scanStep strToDate statOf path pred acc file).1.stat = true := by
  rw [BaseTracker.scanStep_fst]
  by_cases hv : BaseTracker.validate file acc.1.extension <;> simp [hv, h]

/-- A valid-extension file whose stem has no parseable timestamp forces
`request.stat` to `true` (part_001:253). -/
theorem BaseTracker.scanStep_stat_set (strToDate : String → Option Nat)
    (statOf : String → FileStat) (path : String) (pred : Change → Bool)
    (acc : Request × ScanBags) (file : String)
    (hv : BaseTracker.validate file acc.1.extension = true)
    (hm : (BaseTracker.meta strToDate (parseFile file).1).created = none) :
    (BaseTracker.scanStep strToDate statOf path pred acc file).1.stat = true := by
  rw [BaseTracker.scanStep_fst]
  simp [hv, hm]

theorem BaseTracker.scanStep_statted_mono (strToDate : String → Option Nat)
    (statOf : String → FileStat) (path : String) (pred : Change → Bool)
    (acc : Request × ScanBags) (file : String) (s : String)
    (h : s ∈ acc.2.statted) :
    s ∈ (BaseTracker.scanStep strToDate statOf path pred acc file).2.statted := by
  simp only [BaseTracker.scanStep]
  split_ifs <;> simp [h]

/-- Once the stat flag is set, every further valid-extension file is
`fs.stat`-ed (its path joins the audit trail). -/
theorem BaseTracker.scanStep_statted_hit (strToDate : String → Option Nat)
    (statOf : String → FileStat) (path : String) (pred : Change → Bool)
    (acc : Request × ScanBags) (file : String)
    (hst : acc.1.stat = true)
    (hv : BaseTracker.validate file acc.1.extension = true) :
    (path ++ "/" ++ file) ∈
      (BaseTracker.scanStep strToDate statOf path pred acc file).2.statted := by
  simp only [BaseTracker.scanStep, hv, if_true]
  split_ifs <;>
    first
      | exact absurd rfl (by assumption)
      | exact absurd hst (by assumption)
      | simp

/-- The whole scan loop only ever writes the `stat` field of the request. -/
theorem BaseTracker.scanFold_frame (strToDate : String → Option Nat)
    (statOf : String → FileStat) (path : String) (pred : Change → Bool) :
    ∀ (files : List String) (acc : Request × ScanBags),
      ∃ b, (files.foldl (BaseTracker.scanStep strToDate statOf path pred) acc).1 =
        { acc.1 with stat := b } := by
  intro files
  induction files with
  | nil =>
    intro acc
    exact ⟨acc.1.stat, rfl⟩
  | cons f fs ih =>
    intro acc
    rcases ih (BaseTracker.scanStep strToDate statOf path pred acc f) with ⟨b, hb⟩
    refine ⟨b, ?_⟩
    rw [List.foldl_cons, hb,
      BaseTracker.scanStep_frame strToDate statOf path pred acc f]

theorem BaseTracker.scanFold_stat_mono (strToDate : String → Option Nat)
    (statOf : String → FileStat) (path : String) (pred : Change → Bool) :
    ∀ (files : List String) (acc : Request × ScanBags), acc.1.stat = true →
      (files.foldl (BaseTracker.scanStep strToDate statOf path pred) acc).1.stat = true := by
  intro files
  induction files with
  | nil => intro acc h; simpa using h
  | cons f fs ih =>
    intro acc h
    rw [List.foldl_cons]
    exact ih _ (BaseTracker.scanStep_stat_mono strToDate statOf path pred acc f h)

theorem BaseTracker.scanFold_statted_mono (strToDate : String → Option Nat)
    (statOf : String → FileStat) (path : String) (pred : Change → Bool) :
    ∀ (files : List String) (acc : Request × ScanBags) (s : String),
      s ∈ acc.2.statted →
      s ∈ (files.foldl (BaseTracker.scanStep strToDate statOf path pred) acc).2.statted := by
  intro files
  induction files with
  | nil => intro acc s h; simpa using h
  | cons f fs ih =>
    intro acc s h
    rw [List.foldl_cons]
    exact ih _ s (BaseTracker.scanStep_statted_mono strToDate statOf path pred acc f s h)

theorem MigrationService.commit_proj {δ ε : Type} (runner : Change → Call (SResult δ))
    (trackerAdd : List Change → Call (SResult ε)) (now : Nat) (list : List Change) :
    (MigrationService.commit runner trackerAdd now list).addArg =
      (MigrationService.commitLoop runner now list).valid ∧
    (MigrationService.commit runner trackerAdd now list).invoked =
      (MigrationService.commitLoop runner now list).invoked := by
  unfold MigrationService.commit
  dsimp only
  cases trackerAdd (MigrationService.commitLoop runner now list).valid <;> exact ⟨rfl, rfl⟩

theorem MigrationService.commit_result_ret {δ ε : Type}
    (runner : Change → Call (SResult δ)) (trackerAdd : List Change → Call (SResult ε))
    (now : Nat) (list : List Change) (r : SResult ε)
    (h : trackerAdd (MigrationService.commitLoop runner now list).valid = Call.ret r) :
    (MigrationService.commit runner trackerAdd now list).result =
      { success := true, message := some "Commit successful",
        data := some (MigrationService.commitLoop runner now list).results } := by
  unfold MigrationService.commit
  dsimp only
  rw [h]

theorem MigrationService.commit_result_thrown {δ ε : Type}
    (runner : Change → Call (SResult δ)) (trackerAdd : List Change → Call (SResult ε))
    (now : Nat) (list : List Change) (m : String)
    (h : trackerAdd (MigrationService.commitLoop runner now list).valid = Call.thrown m) :
    (MigrationService.commit runner trackerAdd now list).result =
      { success := false, message := some ("Failed to commit change: " ++ m),
        data := none } := by
  unfold MigrationService.commit
  dsimp only
  rw [h]

theorem MigrationService.rollback_proj {δ ε : Type} (runner : Change → Call (SResult δ))
    (trackerDelete : List Change → Call (SResult ε)) (list : List Change) :
    (MigrationService.rollback runner trackerDelete list).deleteArg =
      (MigrationService.rollbackLoop runner list).valid ∧
    (MigrationService.rollback runner trackerDelete list).invoked =
      (MigrationService.rollbackLoop runner list).invoked := by
  unfold MigrationService.rollback
  dsimp only
  cases trackerDelete (MigrationService.rollbackLoop runner list).valid <;> exact ⟨rfl, rfl⟩

theorem MigrationService.rollback_result_ret {δ ε : Type}
    (runner : Change → Call (SResult δ)) (trackerDelete : List Change → Call (SResult ε))
    (list : List Change) (r : SResult ε)
    (h : trackerDelete (MigrationService.rollbackLoop runner list).valid = Call.ret r) :
    (MigrationService.rollback runner trackerDelete list).result =
      { success := true, message := some "Rollback successful",
        data := some (MigrationService.rollbackLoop runner list).results } := by
  unfold MigrationService.rollback
  dsimp only
  rw [h]

/-- C1: when the runner succeeds on the first `k - 1` available changes and
fails (throw, or returned `success: false`) on the `k`-th,
`MigrationService.commit` invokes the runner on exactly the first `k`
changes in order, calls `tracker.add` with exactly the successful prefix
(each entry stamped `applied = now`), and appending that prefix (as
`MdbTracker.add` does) makes the applied log the prior log concatenated
with it. -/
theorem C1_commit_persists_successful_head {δ ε : Type}
    (runner : Change → Call (SResult δ)) (trackerAdd : List Change → Call (SResult ε))
    (now : Nat) (log list : List Change) (k : Nat)
    (hk1 : 1 ≤ k) (hk2 : k ≤ list.length)
    (hok : ∀ i, i < k - 1 → callOk (runner (list.getD i {})) = true)
    (hfail : callOk (runner (list.getD (k - 1) {})) = false) :
    (MigrationService.commit runner trackerAdd now list).invoked = list.take k ∧
    (MigrationService.commit runner trackerAdd now list).addArg =
      (list.take (k - 1)).map (fun c => { c with applied := some now }) ∧
    (MdbTracker.add log ((MigrationService.commit runner trackerAdd now list).addArg)).1 =
      log ++ (list.take (k - 1)).map (fun c => { c with applied := some now }) := by
  have hloop := MigrationService.commitLoop_spec runner now list k hk1 hk2 hok hfail
  obtain ⟨harg, hinv⟩ := MigrationService.commit_proj runner trackerAdd now list
  refine ⟨?_, ?_, ?_⟩
  · rw [hinv, hloop]
  · rw [harg, hloop]
  · rw [harg, hloop, MdbTracker.add_fst]

/-- C1 at a concrete input: three available changes, the runner throws on
the second; the runner is invoked on the first two only and `tracker.add`
receives the stamped first change. -/
theorem C1_commit_persists_successful_head_witness :
    (MigrationService.commit
        (fun c => if c.name = some "b" then Call.thrown "boom"
          else Call.ret ({ success := true, data := some 1 } : SResult Nat))
        (fun _ => Call.ret ({ success := true, data := some 0 } : SResult Nat)) 7
        [{ name := some "a" }, { name := some "b" }, { name := some "c" }]).invoked =
      ([{ name := some "a" }, { name := some "b" }, { name := some "c" }] : List Change).take 2 ∧
    (MigrationService.commit
        (fun c => if c.name = some "b" then Call.thrown "boom"
          else Call.ret ({ success := true, data := some 1 } : SResult Nat))
        (fun _ => Call.ret ({ success := true, data := some 0 } : SResult Nat)) 7
        [{ name := some "a" }, { name := some "b" }, { name := some "c" }]).addArg =
      (([{ name := some "a" }, { name := some "b" }, { name := some "c" }] : List Change).take 1).map
        (fun c => { c with applied := some 7 }) ∧
    (MdbTracker.add []
        ((MigrationService.commit
          (fun c => if c.name = some "b" then Call.thrown "boom"
            else Call.ret ({ success := true, data := some 1 } : SResult Nat))
          (fun _ => Call.ret ({ success := true, data := some 0 } : SResult Nat)) 7
          [{ name := some "a" }, { name := some "b" }, { name := some "c" }]).addArg)).1 =
      [] ++ (([{ name := some "a" }, { name := some "b" }, { name := some "c" }] : List Change).take 1).map
        (fun c => { c with applied := some 7 }) :=
  C1_commit_persists_successful_head
    (fun c => if c.name = some "b" then Call.thrown "boom"
      else Call.ret ({ success := true, data := some 1 } : SResult Nat))
    (fun _ => Call.ret ({ success := true, data := some 0 } : SResult Nat)) 7 []
    [{ name := some "a" }, { name := some "b" }, { name := some "c" }] 2
    (by decide) (by decide) (by decide) (by decide)

/-- Models the projection `MdbTracker.list` applies to the stored
applied-log documents (src/src/components/mdb/trackers/MdbTracker.ts:132-146):
only `name`, `file`, `path`, `extension` (and the unused `date`) are kept,
so in particular `id`, `created` and `applied` are projected away — every
change `MigrationService.rollback` receives from `tracker.list` has
`id = none`. -/
def MdbTracker.listProject (c : Change) : Change :=
  { name := c.name, file := c.file, path := c.path, extension := c.extension }

/-- C2 refuted at a concrete input: the stored applied log `[a, b, c]` is
id-less (the scan never sets `id` and commit persists scanned changes
unchanged), `rollback` iterates the `tracker.list` projection of it and the
runner fails on `b`.  `tracker.delete` receives exactly the successful
prefix `[a]`, but — because `deleteMany({id: {$in: [null]}})` matches every
id-less document — the whole stored log is removed: the later entries `b`
and `c` do *not* stay, contradicting the claim (and scenario E6, which
expects the log to become `[b, c]`). -/
theorem C2_counterexample :
    (MigrationService.rollback
        (fun c => if c.name = some "b"
          then Call.ret ({ success := false, message := some "no" } : SResult Nat)
          else Call.ret ({ success := true, data := some 9 } : SResult Nat))
        (fun cs => Call.ret ((MdbTracker.delete
          [{ name := some "a", file := some "m/1.a.js", path := some "m",
             extension := some "js", created := some 1, applied := some 10 },
           { name := some "b", file := some "m/2.b.js", path := some "m",
             extension := some "js", created := some 2, applied := some 11 },
           { name := some "c", file := some "m/3.c.js", path := some "m",
             extension := some "js", created := some 3, applied := some 12 }] cs).2))
        (([{ name := some "a", file := some "m/1.a.js", path := some "m",
             extension := some "js", created := some 1, applied := some 10 },
           { name := some "b", file := some "m/2.b.js", path := some "m",
             extension := some "js", created := some 2, applied := some 11 },
           { name := some "c", file := some "m/3.c.js", path := some "m",
             extension := some "js", created := some 3, applied := some 12 }] : List Change).map
          MdbTracker.listProject)).deleteArg =
      [{ name := some "a", file := some "m/1.a.js", path := some "m",
         extension := some "js" }] ∧
    (MdbTracker.delete
        [{ name := some "a", file := some "m/1.a.js", path := some "m",
           extension := some "js", created := some 1, applied := some 10 },
         { name := some "b", file := some "m/2.b.js", path := some "m",
           extension := some "js", created := some 2, applied := some 11 },
         { name := some "c", file := some "m/3.c.js", path := some "m",
           extension := some "js", created := some 3, applied := some 12 }]
        ((MigrationService.rollback
          (fun c => if c.name = some "b"
            then Call.ret ({ success := false, message := some "no" } : SResult Nat)
            else Call.ret ({ success := true, data := some 9 } : SResult Nat))
          (fun cs => Call.ret ((MdbTracker.delete
            [{ name := some "a", file := some "m/1.a.js", path := some "m",
               extension := some "js", created := some 1, applied := some 10 },
             { name := some "b", file := some "m/2.b.js", path := some "m",
               extension := some "js", created := some 2, applied := some 11 },
             { name := some "c", file := some "m/3.c.js", path := some "m",
               extension := some "js", created := some 3, applied := some 12 }] cs).2))
          (([{ name := some "a", file := some "m/1.a.js", path := some "m",
               extension := some "js", created := some 1, applied := some 10 },
             { name := some "b", file := some "m/2.b.js", path := some "m",
               extension := some "js", created := some 2, applied := some 11 },
             { name := some "c", file := some "m/3.c.js", path := some "m",
               extension := some "js", created := some 3, applied := some 12 }] : List Change).map
            MdbTracker.listProject)).deleteArg)).1 = [] ∧
    ({ name := some "b", file := some "m/2.b.js", path := some "m",
       extension := some "js", created := some 2, applied := some 11 } : Change) ∈
      [({ name := some "a", file := some "m/1.a.js", path := some "m",
          extension := some "js", created := some 1, applied := some 10 } : Change),
       { name := some "b", file := some "m/2.b.js", path := some "m",
         extension := some "js", created := some 2, applied := some 11 },
       { name := some "c", file := some "m/3.c.js", path := some "m",
         extension := some "js", created := some 3, applied := some 12 }] ∧
    ({ name := some "c", file := some "m/3.c.js", path := some "m",
       extension := some "js", created := some 3, applied := some 12 } : Change) ∈
      [({ name := some "a", file := some "m/1.a.js", path := some "m",
          extension := some "js", created := some 1, applied := some 10 } : Change),
       { name := some "b", file := some "m/2.b.js", path := some "m",
         extension := some "js", created := some 2, applied := some 11 },
       { name := some "c", file := some "m/3.c.js", path := some "m",
         extension := some "js", created := some 3, applied := some 12 }] := by
  decide

/-- C2 amended: when the runner's rollback succeeds on the first `k - 1`
entries of the applied list and fails on the `k`-th,
`MigrationService.rollback` calls `tracker.delete` with exactly the
successful prefix and returns the successful rollbacks' data under
`success: true`; but the later entries do not stay: `MdbTracker.list`
projects `id` away (`listProject` below, last conjunct), so every entry the
rollback handles is id-less, and `MdbTracker.delete`'s id matching
(`{id: {$in: ids}}`, with `undefined` serialized as `null` and matching
absent ids) then removes *every* id-less entry — a partial failure with a
non-empty successful prefix (`2 ≤ k`) empties the whole id-less applied
log instead of removing only the prefix.  (`hret` records that the
tracker's `delete` returns a result rather than throwing, as
`MdbTracker.delete` always does.) -/
theorem C2_rollback_partial_wipes_idless_log {δ ε : Type}
    (runner : Change → Call (SResult δ)) (trackerDelete : List Change → Call (SResult ε))
    (log : List Change) (k : Nat)
    (hk2 : 2 ≤ k) (hklen : k ≤ log.length)
    (hok : ∀ i, i < k - 1 → callOk (runner (log.getD i {})) = true)
    (hfail : callOk (runner (log.getD (k - 1) {})) = false)
    (hret : ∀ cs, ∃ r, trackerDelete cs = Call.ret r)
    (hids : ∀ e ∈ log, e.id = none) :
    (MigrationService.rollback runner trackerDelete log).deleteArg = log.take (k - 1) ∧
    (MigrationService.rollback runner trackerDelete log).result =
      { success := true, message := some "Rollback successful",
        data := some ((log.take (k - 1)).map (fun c => callData (runner c))) } ∧
    (MdbTracker.delete log
      ((MigrationService.rollback runner trackerDelete log).deleteArg)).1 = [] ∧
    (∀ c, (MdbTracker.listProject c).id = none) := by
  have hloop := MigrationService.rollbackLoop_spec runner log k (by omega) hklen hok hfail
  obtain ⟨harg, _⟩ := MigrationService.rollback_proj runner trackerDelete log
  obtain ⟨r, hr⟩ := hret (MigrationService.rollbackLoop runner log).valid
  refine ⟨?_, ?_, ?_, fun c => rfl⟩
  · rw [harg, hloop]
  · rw [MigrationService.rollback_result_ret runner trackerDelete log r hr, hloop]
  · rw [harg, hloop]
    have hlen : 0 < (log.take (k - 1)).length := by
      rw [List.length_take]
      omega
    have hne : log.take (k - 1) ≠ [] := by
      intro hnil
      rw [hnil] at hlen
      simp at hlen
    obtain ⟨x, hx⟩ := List.exists_mem_of_ne_nil _ hne
    have hxid : x.id = none := hids x (List.take_subset _ _ hx)
    have hnone : (none : Option String) ∈ (log.take (k - 1)).map Change.id := by
      rw [← hxid]
      exact List.mem_map_of_mem Change.id hx
    simp only [MdbTracker.delete]
    rw [List.filter_eq_nil_iff]
    intro e he
    have heid : e.id = none := hids e he
    rw [heid]
    have hnone' : (none : Option String) ∈ List.take (k - 1) (List.map Change.id log) := by
      simpa [List.map_take] using hnone
    simp [hnone']

/-- C2 amended, at a concrete input: an id-less three-entry log, the
rollback fails on the second entry; `delete` gets exactly the first entry
yet the whole log is emptied, and the `list` projection yields `id = none`
even for a stored entry that had an id. -/
theorem C2_rollback_partial_wipes_idless_log_witness :
    (MigrationService.rollback
        (fun c => if c.name = some "b"
          then Call.ret ({ success := false, message := some "no" } : SResult Nat)
          else Call.ret ({ success := true, data := some 9 } : SResult Nat))
        (fun cs => Call.ret ((MdbTracker.delete
          [{ name := some "a", file := some "fa" }, { name := some "b", file := some "fb" },
           { name := some "c", file := some "fc" }] cs).2))
        [{ name := some "a", file := some "fa" }, { name := some "b", file := some "fb" },
         { name := some "c", file := some "fc" }]).deleteArg =
      ([{ name := some "a", file := some "fa" }, { name := some "b", file := some "fb" },
        { name := some "c", file := some "fc" }] : List Change).take 1 ∧
    (MigrationService.rollback
        (fun c => if c.name = some "b"
          then Call.ret ({ success := false, message := some "no" } : SResult Nat)
          else Call.ret ({ success := true, data := some 9 } : SResult Nat))
        (fun cs => Call.ret ((MdbTracker.delete
          [{ name := some "a", file := some "fa" }, { name := some "b", file := some "fb" },
           { name := some "c", file := some "fc" }] cs).2))
        [{ name := some "a", file := some "fa" }, { name := some "b", file := some "fb" },
         { name := some "c", file := some "fc" }]).result =
      { success := true, message := some "Rollback successful",
        data := some ((([{ name := some "a", file := some "fa" },
          { name := some "b", file := some "fb" },
          { name := some "c", file := some "fc" }] : List Change).take 1).map
          (fun c => callData
            (if c.name = some "b"
              then Call.ret ({ success := false, message := some "no" } : SResult Nat)
              else Call.ret ({ success := true, data := some 9 } : SResult Nat)))) } ∧
    (MdbTracker.delete
        [{ name := some "a", file := some "fa" }, { name := some "b", file := some "fb" },
         { name := some "c", file := some "fc" }]
        ((MigrationService.rollback
          (fun c => if c.name = some "b"
            then Call.ret ({ success := false, message := some "no" } : SResult Nat)
            else Call.ret ({ success := true, data := some 9 } : SResult Nat))
          (fun cs => Call.ret ((MdbTracker.delete
            [{ name := some "a", file := some "fa" }, { name := some "b", file := some "fb" },
             { name := some "c", file := some "fc" }] cs).2))
          [{ name := some "a", file := some "fa" }, { name := some "b", file := some "fb" },
           { name := some "c", file := some "fc" }]).deleteArg)).1 = [] ∧
    (MdbTracker.listProject { id := some "z", name := some "a" }).id = none := by
  have h := C2_rollback_partial_wipes_idless_log
    (fun c => if c.name = some "b"
      then Call.ret ({ success := false, message := some "no" } : SResult Nat)
      else Call.ret ({ success := true, data := some 9 } : SResult Nat))
    (fun cs => Call.ret ((MdbTracker.delete
      [{ name := some "a", file := some "fa" }, { name := some "b", file := some "fb" },
       { name := some "c", file := some "fc" }] cs).2))
    [{ name := some "a", file := some "fa" }, { name := some "b", file := some "fb" },
     { name := some "c", file := some "fc" }] 2
    (by decide) (by decide) (by decide) (by decide)
    (fun cs => ⟨_, rfl⟩) (by decide)
  exact ⟨h.1, h.2.1, h.2.2.1, h.2.2.2 { id := some "z", name := some "a" }⟩

/-- C3 refuted at a concrete input: the runner succeeds on the only
available change, `tracker.add` returns `{success: false}` (a persistence
error reported as a result, as `MdbTracker.add` does on a driver error),
yet `MigrationService.commit` returns `{success: true, message: 'Commit
successful'}` — not the `success: false` the claim requires. -/
theorem C3_counterexample :
    (MigrationService.commit
        (fun _ => Call.ret ({ success := true, data := some 0 } : SResult Nat))
        (fun _ => Call.ret ({ success := false, message := some "persist error" } : SResult Nat))
        5 [{ name := some "a" }]).result =
      { success := true, message := some "Commit successful", data := some [some 0] } := by
  decide

/-- C3 amended: `MigrationService.commit` surfaces a persistence failure
only when `tracker.add` throws (the `catch` path); when `tracker.add`
merely returns a result with `success: false`, commit still returns
`{success: true, message: 'Commit successful'}` with the runner results —
the returned `add` result is only used for logging. -/
theorem C3_add_failure_not_surfaced {δ ε : Type}
    (runner : Change → Call (SResult δ)) (trackerAdd : List Change → Call (SResult ε))
    (now : Nat) (list : List Change) :
    (∀ r : SResult ε,
      trackerAdd (MigrationService.commitLoop runner now list).valid = Call.ret r →
      (MigrationService.commit runner trackerAdd now list).result =
        { success := true, message := some "Commit successful",
          data := some (MigrationService.commitLoop runner now list).results }) ∧
    (∀ m : String,
      trackerAdd (MigrationService.commitLoop runner now list).valid = Call.thrown m →
      (MigrationService.commit runner trackerAdd now list).result =
        { success := false, message := some ("Failed to commit change: " ++ m),
          data := none }) :=
  ⟨fun r hr => MigrationService.commit_result_ret runner trackerAdd now list r hr,
   fun m hm => MigrationService.commit_result_thrown runner trackerAdd now list m hm⟩

/-- C3 amended, at concrete inputs: a returned failing `add` result leaves
commit successful; a thrown `add` turns into the overall failure result. -/
theorem C3_add_failure_not_surfaced_witness :
    (MigrationService.commit
        (fun _ => Call.ret ({ success := true, data := some 0 } : SResult Nat))
        (fun _ => Call.ret ({ success := false, message := some "persist boom" } : SResult Nat))
        5 [{ name := some "b" }]).result =
      { success := true, message := some "Commit successful",
        data := some (MigrationService.commitLoop
          (fun _ => Call.ret ({ success := true, data := some 0 } : SResult Nat)) 5
          [{ name := some "b" }]).results } ∧
    (MigrationService.commit
        (fun _ => Call.ret ({ success := true, data := some 0 } : SResult Nat))
        (fun _ => Call.thrown "io down" : List Change → Call (SResult Nat))
        5 [{ name := some "b" }]).result =
      { success := false, message := some ("Failed to commit change: " ++ "io down"),
        data := none } :=
  ⟨(C3_add_failure_not_surfaced
      (fun _ => Call.ret ({ success := true, data := some 0 } : SResult Nat))
      (fun _ => Call.ret ({ success := false, message := some "persist boom" } : SResult Nat))
      5 [{ name := some "b" }]).1 _ rfl,
   (C3_add_failure_not_surfaced
      (fun _ => Call.ret ({ success := true, data := some 0 } : SResult Nat))
      (fun _ => Call.thrown "io down")
      5 [{ name := some "b" }]).2 "io down" rfl⟩

/-- C4 refuted at a concrete input: `last.created = 100`, the scan finds
`mig/5.x.js` with `created = 5 ≤ 100`, and `filter.name = "x"` matches the
file; `BaseTracker.info` still classifies the file as available, because
the name-regex branch overwrites the created-vs-last answer instead of
conjoining with it. -/
theorem C4_counterexample :
    (BaseTracker.info strToNat strContains (fun _ => defaultStatObj)
        ["5.x.js"] ""
        { path := some "mig", filter := some { name := some "x" } }
        (some { created := some 100 })).available =
      [{ name := some "x", file := some "mig/5.x.js", path := some "mig",
         extension := some "js", created := some 5 }] ∧
    (5 : Nat) ≤ 100 := by
  constructor
  · rfl
  · decide

/-- C4 amended: when `filter.name` is set and non-empty, the availability
predicate used by `BaseTracker.info` is decided solely by the name regex
against `change.file` (negated when `filter.type = 'exclude'`): the result
is independent of `last`, so the `created > last.created` condition is
discarded rather than conjoined.  (The created check decides availability
only when `filter.name` is unset.) -/
theorem C4_name_filter_overrides_created (regexTest : String → String → Bool)
    (filter : Filter) (change : Change) (pat : String)
    (hname : filter.name = some pat) (hpat : pat ≠ "") :
    ∀ last : Option Change,
      BaseTracker.infoPred regexTest last filter change =
        (if filter.type == some "exclude" then !(regexTest pat (change.file.getD ""))
         else regexTest pat (change.file.getD "")) := by
  intro last
  simp [BaseTracker.infoPred, hname, hpat]

/-- C4 amended at a concrete input: with `filter.name = "x"` the predicate
returns the regex answer even though `created = 5` is not greater than
`last.created = 100`. -/
theorem C4_name_filter_overrides_created_witness :
    BaseTracker.infoPred strContains (some { created := some 100 })
        { name := some "x" } { file := some "mig/5.x.js", created := some 5 } =
      (if ({ name := some "x" } : Filter).type == some "exclude"
        then !(strContains "x" (({ file := some "mig/5.x.js", created := some 5 } : Change).file.getD ""))
        else strContains "x" (({ file := some "mig/5.x.js", created := some 5 } : Change).file.getD "")) :=
  C4_name_filter_overrides_created strContains { name := some "x" }
    { file := some "mig/5.x.js", created := some 5 } "x" rfl (by decide)
    (some { created := some 100 })

/-- C5: `BaseRunner.commit`'s type gate is `change.type !== 'module'`, so a
change whose `type` is absent is rejected with the gate message without the
migration module ever being invoked (the result is the same for every
possible module), contradicting the documented `absent ≡ module` default. -/
theorem C5_type_gate_rejects_absent_type (runModule : Change → Except String Change) :
    BaseRunner.commit runModule { name := some "m1" } =
      { success := false,
        message := some "Only 'module' type changes are supported for commit.",
        data := none } := by
  rfl

/-- Lexicographic order on character lists (the order JS string comparison
uses for filenames). -/
def lexLt : List Char → List Char → Bool
  | [], [] => false
  | [], _ :: _ => true
  | _ :: _, [] => false
  | a :: as, b :: bs => if a = b then lexLt as bs else decide (a < b)

/-- C6 refuted at a concrete input: two files share the parsed timestamp
`9` but are listed by `readdir` as `["9.bbb.js", "9.aaa.js"]`; the scan's
stable sort keeps that order, so the tie is *not* broken by filename
(`"m/9.aaa.js" < "m/9.bbb.js"` yet `bbb` comes first). -/
theorem C6_counterexample :
    ((BaseTracker.scan strToNat (fun _ => defaultStatObj)
        ["9.bbb.js", "9.aaa.js"] "m" {} (fun _ => true)).available.map Change.name =
      [some "bbb", some "aaa"]) ∧
    ((BaseTracker.scan strToNat (fun _ => defaultStatObj)
        ["9.bbb.js", "9.aaa.js"] "m" {} (fun _ => true)).available.map Change.created =
      [some 9, some 9]) ∧
    (lexLt "m/9.aaa.js".toList "m/9.bbb.js".toList = true) := by
  refine ⟨rfl, rfl, ?_⟩
  decide

/-- C6 amended: the scan's `available` list is ordered by parsed `created`
ascending (missing timestamps sort as epoch `0`), and entries with equal
`created` keep their scan-encounter (`readdir`) order — the sort is stable
and does not break ties by filename. -/
theorem C6_scan_sorted_by_created (strToDate : String → Option Nat)
    (statOf : String → FileStat) (files : List String) (path : String)
    (req : Request) (pred : Change → Bool) :
    (BaseTracker.scan strToDate statOf files path req pred).available.Pairwise
      (fun a b => createdKey a ≤ createdKey b) ∧
    ∀ k, (BaseTracker.scan strToDate statOf files path req pred).available.filter
        (fun c => createdKey c = k) =
      (BaseTracker.scanRaw strToDate statOf files path req pred).2.available.filter
        (fun c => createdKey c = k) := by
  constructor
  · exact sortByCreated_pairwise _
  · intro k
    exact sortByCreated_filter _ k

/-- C7: `BaseTracker.info` splits the scanned candidates by the
`filter.count` take-limit: with count `N > 0` the first `N` go to
`available` and the rest to `ignored`; with count `0` or unset everything
is available and `ignored` is empty; in all cases
`available ++ ignored` is exactly the candidate list. -/
theorem C7_count_take_limit (strToDate : String → Option Nat)
    (regexTest : String → String → Bool) (statOf : String → FileStat)
    (files : List String) (cwd : String) (req : Request) (last : Option Change) :
    (BaseTracker.info strToDate regexTest statOf files cwd req last).available ++
        (BaseTracker.info strToDate regexTest statOf files cwd req last).ignored =
      (BaseTracker.scan strToDate statOf files (req.path.getD cwd) req
        (BaseTracker.infoPred regexTest last (req.filter.getD {}))).available ∧
    (BaseTracker.info strToDate regexTest statOf files cwd req last).available =
      (if (req.filter.getD {}).count.getD 0 = 0 then
        (BaseTracker.scan strToDate statOf files (req.path.getD cwd) req
          (BaseTracker.infoPred regexTest last (req.filter.getD {}))).available
       else
        (BaseTracker.scan strToDate statOf files (req.path.getD cwd) req
          (BaseTracker.infoPred regexTest last (req.filter.getD {}))).available.take
          ((req.filter.getD {}).count.getD 0)) ∧
    (BaseTracker.info strToDate regexTest statOf files cwd req last).ignored =
      (if (req.filter.getD {}).count.getD 0 = 0 then []
       else
        (BaseTracker.scan strToDate statOf files (req.path.getD cwd) req
          (BaseTracker.infoPred regexTest last (req.filter.getD {}))).available.drop
          ((req.filter.getD {}).count.getD 0)) := by
  by_cases h0 : (req.filter.getD {}).count.getD 0 = 0 <;>
    simp [BaseTracker.info, BaseTracker.listSplit, h0]

/-- C8 refuted at a concrete input: a change without an `applied` stamp is
handed to `MdbTracker.add` and the persisted entry still has no `applied`
stamp — `add` inserts the changes exactly as given and stamps nothing. -/
theorem C8_counterexample :
    (MdbTracker.add [] [{ name := some "a", file := some "f" }]).1 =
      [{ name := some "a", file := some "f" }] ∧
    ({ name := some "a", file := some "f" } : Change).applied = none := by
  decide

/-- C8 amended: `MdbTracker.add` persists the given entries unchanged
(appended in order, no stamping); the `applied = now` stamp is set by
`MigrationService.commit` itself (MigrationService.ts:44) on every change
of the `valid` batch before it is handed to `tracker.add`. -/
theorem C8_caller_stamps_applied {δ : Type}
    (runner : Change → Call (SResult δ)) (now : Nat) :
    (∀ log changes, (MdbTracker.add log changes).1 = log ++ changes) ∧
    (∀ list c, c ∈ (MigrationService.commitLoop runner now list).valid →
      c.applied = some now) :=
  ⟨fun log changes => MdbTracker.add_fst log changes,
   fun list c h => MigrationService.commitLoop_valid_applied runner now list c h⟩

/-- C8 amended at concrete inputs: `add` appends without touching the
entries, and a change committed by the service loop carries the stamp. -/
theorem C8_caller_stamps_applied_witness :
    (MdbTracker.add [({ name := some "z" } : Change)]
        [({ name := some "a" } : Change)]).1 =
      [({ name := some "z" } : Change)] ++ [({ name := some "a" } : Change)] ∧
    ({ name := some "a", applied := some 7 } : Change).applied = some 7 :=
  ⟨(C8_caller_stamps_applied
      (fun _ => Call.ret ({ success := true, data := some 0 } : SResult Nat)) 7).1
      [{ name := some "z" }] [{ name := some "a" }],
   (C8_caller_stamps_applied
      (fun _ => Call.ret ({ success := true, data := some 0 } : SResult Nat)) 7).2
      [{ name := some "a" }] { name := some "a", applied := some 7 } (by decide)⟩

theorem filter_not_length (p : Change → Bool) (l : List Change) :
    (l.filter p).length + (l.filter (fun e => !(p e))).length = l.length := by
  induction l with
  | nil => simp
  | cons a as ih =>
    by_cases h : p a <;> simp [h, List.filter] <;> omega

/-- C9 refuted at a concrete input: the log entry and the input change
share the `id` `"x"` but differ in both `file` and `name`; `delete` still
removes the entry, because matching is on `id`, not on the
`(file, name)` pair. -/
theorem C9_counterexample :
    (MdbTracker.delete
        [{ id := some "x", file := some "f1", name := some "n1" }]
        [{ id := some "x", file := some "f2", name := some "n2" }]).1 = [] ∧
    ({ id := some "x", file := some "f1", name := some "n1" } : Change).file ≠
      ({ id := some "x", file := some "f2", name := some "n2" } : Change).file ∧
    ({ id := some "x", file := some "f1", name := some "n1" } : Change).name ≠
      ({ id := some "x", file := some "f2", name := some "n2" } : Change).name := by
  decide

/-- C9 amended: `MdbTracker.delete` removes an applied-log entry iff the
entry's `id` equals the `id` of some input change (Mongo
`{id: {$in: ids}}`), and the returned result is a success whose `data`
carries the number of removed entries (`deletedCount`). -/
theorem C9_delete_matches_on_id (log changes : List Change) :
    (∀ e, e ∈ (MdbTracker.delete log changes).1 ↔
      e ∈ log ∧ (changes.map Change.id).contains e.id = false) ∧
    (MdbTracker.delete log changes).2.success = true ∧
    (MdbTracker.delete log changes).2.data =
      some (log.length - (MdbTracker.delete log changes).1.length) := by
  refine ⟨?_, rfl, ?_⟩
  · intro e
    simp [MdbTracker.delete, List.mem_filter]
  · simp only [MdbTracker.delete]
    rw [List.countP_eq_length_filter]
    have h := filter_not_length
      (fun e => (changes.map Change.id).contains e.id) log
    have hle : ((log.filter (fun e => !((changes.map Change.id).contains e.id))).length) ≤ log.length :=
      List.length_filter_le _ _
    congr 1
    omega

/-- C9 amended at a concrete input. -/
theorem C9_delete_matches_on_id_witness :
    (({ id := some "y", name := some "n" } : Change) ∈
        (MdbTracker.delete
          [{ id := some "x" }, { id := some "y", name := some "n" }]
          [{ id := some "x", file := some "other" }]).1 ↔
      ({ id := some "y", name := some "n" } : Change) ∈
          [({ id := some "x" } : Change), { id := some "y", name := some "n" }] ∧
        (([{ id := some "x", file := some "other" }] : List Change).map Change.id).contains
          (({ id := some "y", name := some "n" } : Change).id) = false) ∧
    (MdbTracker.delete
        [{ id := some "x" }, { id := some "y", name := some "n" }]
        [{ id := some "x", file := some "other" }]).2.success = true ∧
    (MdbTracker.delete
        [{ id := some "x" }, { id := some "y", name := some "n" }]
        [{ id := some "x", file := some "other" }]).2.data =
      some ((([{ id := some "x" }, { id := some "y", name := some "n" }] : List Change).length) -
        ((MdbTracker.delete
          [{ id := some "x" }, { id := some "y", name := some "n" }]
          [{ id := some "x", file := some "other" }]).1.length)) :=
  ⟨(C9_delete_matches_on_id
      [{ id := some "x" }, { id := some "y", name := some "n" }]
      [{ id := some "x", file := some "other" }]).1 { id := some "y", name := some "n" },
   (C9_delete_matches_on_id
      [{ id := some "x" }, { id := some "y", name := some "n" }]
      [{ id := some "x", file := some "other" }]).2.1,
   (C9_delete_matches_on_id
      [{ id := some "x" }, { id := some "y", name := some "n" }]
      [{ id := some "x", file := some "other" }]).2.2⟩

theorem BaseTracker.scan_req (strToDate : String → Option Nat)
    (statOf : String → FileStat) (files : List String) (path : String)
    (req : Request) (pred : Change → Bool) :
    (BaseTracker.scan strToDate statOf files path req pred).req =
      (files.foldl (BaseTracker.scanStep strToDate statOf path pred) (req, {})).1 := rfl

theorem BaseTracker.scan_statted (strToDate : String → Option Nat)
    (statOf : String → FileStat) (files : List String) (path : String)
    (req : Request) (pred : Change → Bool) :
    (BaseTracker.scan strToDate statOf files path req pred).statted =
      (files.foldl (BaseTracker.scanStep strToDate statOf path pred) (req, {})).2.statted := rfl

/-- C10: `scan` mutates its request argument.  If the listing contains a
valid-extension file `f0` whose stem has no parseable timestamp, then
(i) the request object comes out of the scan with `stat := true` and every
other field unchanged — so any later operation reusing the same request
runs with `stat` set even if the caller had left it unset — and (ii) every
valid-extension file after `f0` in the same scan is `fs.stat`-ed,
regardless of the caller's original `stat` value. -/
theorem C10_scan_mutates_request_stat (strToDate : String → Option Nat)
    (statOf : String → FileStat) (path : String) (pred : Change → Bool)
    (req : Request) (pre post : List String) (f0 : String)
    (hv0 : BaseTracker.validate f0 req.extension = true)
    (hm0 : (BaseTracker.meta strToDate (parseFile f0).1).created = none) :
    (BaseTracker.scan strToDate statOf (pre ++ f0 :: post) path req pred).req =
      { req with stat := true } ∧
    ∀ f, f ∈ post → BaseTracker.validate f req.extension = true →
      (path ++ "/" ++ f) ∈
        (BaseTracker.scan strToDate statOf (pre ++ f0 :: post) path req pred).statted := by
  have hext1 : (pre.foldl (BaseTracker.scanStep strToDate statOf path pred)
      (req, {})).1.extension = req.extension := by
    obtain ⟨b, hb⟩ := BaseTracker.scanFold_frame strToDate statOf path pred pre (req, {})
    rw [hb]
  have hv0' : BaseTracker.validate f0
      (pre.foldl (BaseTracker.scanStep strToDate statOf path pred) (req, {})).1.extension = true := by
    rw [hext1]; exact hv0
  have hstat2 : (BaseTracker.scanStep strToDate statOf path pred
      (pre.foldl (BaseTracker.scanStep strToDate statOf path pred) (req, {})) f0).1.stat = true :=
    BaseTracker.scanStep_stat_set strToDate statOf path pred _ f0 hv0' hm0
  have hfstep : (BaseTracker.scanStep strToDate statOf path pred
      (pre.foldl (BaseTracker.scanStep strToDate statOf path pred) (req, {})) f0).1 =
      { (pre.foldl (BaseTracker.scanStep strToDate statOf path pred) (req, {})).1 with
        stat := true } := by
    rw [BaseTracker.scanStep_fst, if_pos hv0', hm0]
    simp
  constructor
  · rw [BaseTracker.scan_req, List.foldl_append, List.foldl_cons]
    obtain ⟨b, hb⟩ := BaseTracker.scanFold_frame strToDate statOf path pred post
      (BaseTracker.scanStep strToDate statOf path pred
        (pre.foldl (BaseTracker.scanStep strToDate statOf path pred) (req, {})) f0)
    have hstatTrue : (post.foldl (BaseTracker.scanStep strToDate statOf path pred)
        (BaseTracker.scanStep strToDate statOf path pred
          (pre.foldl (BaseTracker.scanStep strToDate statOf path pred) (req, {})) f0)).1.stat = true :=
      BaseTracker.scanFold_stat_mono strToDate statOf path pred post _ hstat2
    obtain ⟨b0, hb0⟩ := BaseTracker.scanFold_frame strToDate statOf path pred pre (req, {})
    rw [hb] at hstatTrue
    have hbtrue : b = true := hstatTrue
    rw [hb, hbtrue, hfstep, hb0]
  · intro f hf hvf
    obtain ⟨p1, p2, hpost⟩ := List.append_of_mem hf
    subst hpost
    rw [BaseTracker.scan_statted, List.foldl_append, List.foldl_cons,
      List.foldl_append, List.foldl_cons]
    have hstat3 : (p1.foldl (BaseTracker.scanStep strToDate statOf path pred)
        (BaseTracker.scanStep strToDate statOf path pred
          (pre.foldl (BaseTracker.scanStep strToDate statOf path pred) (req, {})) f0)).1.stat = true :=
      BaseTracker.scanFold_stat_mono strToDate statOf path pred p1 _ hstat2
    have hext3 : (p1.foldl (BaseTracker.scanStep strToDate statOf path pred)
        (BaseTracker.scanStep strToDate statOf path pred
          (pre.foldl (BaseTracker.scanStep strToDate statOf path pred) (req, {})) f0)).1.extension =
        req.extension := by
      obtain ⟨b1, hb1⟩ := BaseTracker.scanFold_frame strToDate statOf path pred p1
        (BaseTracker.scanStep strToDate statOf path pred
          (pre.foldl (BaseTracker.scanStep strToDate statOf path pred) (req, {})) f0)
      obtain ⟨b0, hb0⟩ := BaseTracker.scanFold_frame strToDate statOf path pred pre (req, {})
      rw [hb1, hfstep, hb0]
    have hvf' : BaseTracker.validate f
        (p1.foldl (BaseTracker.scanStep strToDate statOf path pred)
          (BaseTracker.scanStep strToDate statOf path pred
            (pre.foldl (BaseTracker.scanStep strToDate statOf path pred) (req, {})) f0)).1.extension =
        true := by
      rw [hext3]; exact hvf
    have hhit := BaseTracker.scanStep_statted_hit strToDate statOf path pred _ f hstat3 hvf'
    exact BaseTracker.scanFold_statted_mono strToDate statOf path pred p2 _ _ hhit

/-- C10 at a concrete input: with `stat` initially unset, the unparseable
`"nots.js"` flips `request.stat` to `true`, the later `"20.b.js"` is
`fs.stat`-ed, and the returned request differs from the original only in
`stat`. -/
theorem C10_scan_mutates_request_stat_witness :
    (BaseTracker.scan strToNat (fun _ => { isFile := true, birthtime := some 3 })
        (["10.a.js"] ++ "nots.js" :: ["20.b.js"]) "m" {} (fun _ => true)).req =
      { ({} : Request) with stat := true } ∧
    ("m" ++ "/" ++ "20.b.js") ∈
      (BaseTracker.scan strToNat (fun _ => { isFile := true, birthtime := some 3 })
        (["10.a.js"] ++ "nots.js" :: ["20.b.js"]) "m" {} (fun _ => true)).statted := by
  have h := C10_scan_mutates_request_stat strToNat
    (fun _ => { isFile := true, birthtime := some 3 }) "m" (fun _ => true) {}
    ["10.a.js"] ["20.b.js"] "nots.js" (by decide) (by decide)
  exact ⟨h.1, h.2 "20.b.js" (by decide) (by decide)⟩

end KozenDelta
